import Mathlib

/-!
Shallow embedding of the transaction core of the Hanimat vending-machine
firmware (src/src/main.cpp) and proofs about it.

Modelling conventions:
* `millis()` timestamps are natural numbers; the firmware runs on monotone
  time, so the C `unsigned long` subtraction `now - earlier` is modelled by
  truncated natural subtraction (equal to the C value whenever
  `earlier ≤ now`, which the theorems' hypotheses guarantee).
* The `float` monetary values (`credit`, `slotPrices[]`) are modelled as
  rational numbers; the claims under study concern control flow, clamping
  and signs, not floating-point rounding.
* Hardware effects (I2C acknowledgement, relay-board liveness probe) enter
  as explicit boolean inputs of the step functions.
* Display drawing, sounds and logging are not part of any claim; the calls
  to `displayErrorMessage` are modelled by appending an `ErrMsg` event to a
  ghost `errors` log (one constructor per call site), and Telegram
  notifications by a ghost `notes` log.
-/

namespace Hanimat

/-! ### Constants (src/src/main.cpp lines 65-104, 153) -/

def MAX_SLOTS : Nat := 16

/-- Default value of the mutable global `COIN_PROCESSING_DELAY` (line 69). -/
def COIN_PROCESSING_DELAY : Nat := 150

/-- Default value of the mutable global `DISPENSE_RELAY_ON_TIME` (line 72). -/
def DISPENSE_RELAY_ON_TIME : Nat := 5000

/-- `KEYPAD_DEBOUNCE_PERIOD` (line 153). -/
def KEYPAD_DEBOUNCE_PERIOD : Nat := 50

/-- Default of `BILL_GROUP_PROCESSING_TIMEOUT_MS` (line 71). -/
def BILL_GROUP_PROCESSING_TIMEOUT_MS : Nat := 1500

/-- `pulseValues` (line 98): cent value for a coin pulse count. -/
def pulseValues : List Int := [0, 0, 10, 20, 50, 100, 200]

/-- `billValues` (lines 101-104): Euro value for a bill pulse count. -/
def billValues : List Int :=
  [0, 0, 0, 0, 5, 0, 0, 0, 10, 0, 0, 0, 0, 0, 0, 0, 20]

/-! ### System state and ghost event types -/

/-- `CurrentSystemState` (lines 110-115). -/
inductive SysState where
  | idle
  | userInteraction
  | errorDisplay
  | otaUpdate
deriving DecidableEq, Repr

/-- One constructor per `displayErrorMessage` call site in the modelled
core (the two string arguments determine the constructor). -/
inductive ErrMsg where
  | slotLocked            -- "Fach N" / "gesperrt!"
  | slotEmpty             -- "Fach N" / "ist leer!"
  | insufficientCredit    -- "Guthaben" / "zu gering!"
  | noSlotChosen          -- "Kein Fach" / "gewaehlt!"
  | invalidSlot           -- "Fach NN" / "ungueltig!"
  | relayBoardOffline     -- "Relais Fehler" / "Board offline"
  | relayActivationFailed -- "Relais Fehler" / "Kauf abgebrochen"
deriving DecidableEq, Repr

/-- Telegram notification events emitted by the core. -/
inductive Note where
  | sale (slot : Int)
  | almostEmpty
  | empty
deriving DecidableEq, Repr

/-! ### Machine state

One record holding the firmware globals that the modelled core reads or
writes (lines 123-222 of main.cpp). -/

/-- `struct DispenseJob` (lines 207-212). -/
structure DispenseJob where
  active : Bool
  slot : Int
  startTime : Nat
  relayActivated : Bool
deriving DecidableEq, Repr

structure Machine where
  credit : ℚ                     -- float credit
  slotPrices : Nat → ℚ           -- float slotPrices[MAX_SLOTS]
  slotAvailable : Nat → Bool     -- bool slotAvailable[MAX_SLOTS]
  slotLocked : Nat → Bool        -- bool slotLocked[MAX_SLOTS]
  activeSlots : Nat              -- int activeSlots
  job : DispenseJob              -- dispenseJob
  relayMask : Nat                -- expanderOutputStates[0] (16-bit)
  lastRelayChangeTime : Nat
  billInhibit : Bool             -- level of BILL_INHIBIT_PIN (true = HIGH)
  selectedSlot : Int
  buffer : List Nat              -- keypadInputBuffer digits
  slotSelectedTime : Nat
  lastKeypadInputTime : Nat
  lastUserInteractionTime : Nat
  sysState : SysState
  aeSent : Bool                  -- almostEmptyNotificationSent
  eSent : Bool                   -- emptyNotificationSent
  notifyAE : Bool                -- telegramNotifyAlmostEmpty
  notifyE : Bool                 -- telegramNotifyEmpty
  notifyOnSale : Bool            -- telegramNotifyOnSale
  threshold : Nat                -- almostEmptyThreshold
  displayNeedsUpdate : Bool
  errors : List ErrMsg           -- ghost: displayErrorMessage events
  notes : List Note              -- ghost: sendTelegramMessage events

/-! ### Display reset and error display -/

/-- `resetDisplayToDefault` (lines 858-864). -/
def resetDisplayToDefault (now : Nat) (m : Machine) : Machine :=
  { m with selectedSlot := -1, buffer := [], sysState := SysState.idle,
           displayNeedsUpdate := true, lastUserInteractionTime := now }

/-- `displayErrorMessage` (lines 1295-1326): records the error, enters
`ERROR_DISPLAY`, dwells 3000 ms, then resets the display to default. -/
def displayErrorMessage (e : ErrMsg) (now : Nat) (m : Machine) : Machine :=
  let m1 := { m with sysState := SysState.errorDisplay,
                     errors := m.errors ++ [e], displayNeedsUpdate := false }
  resetDisplayToDefault (now + 3000) m1

/-! ### Slot ledger queries (lines 2035-2053) -/

/-- `countAvailableSlots` (lines 2035-2041). -/
def countAvailableSlots (activeSlots : Nat) (avail locked : Nat → Bool) : Nat :=
  (List.range activeSlots).countP (fun i => avail i && !locked i)

/-- `countEmptySlots` (lines 2047-2053). -/
def countEmptySlots (activeSlots : Nat) (avail locked : Nat → Bool) : Nat :=
  (List.range activeSlots).countP (fun i => !avail i && !locked i)

/-! ### Stock notification check (lines 2058-2085) -/

/-- Branch logic of `checkOverallStockLevel` (lines 2058-2085) on the pair
of latch flags, returning the new flags and the emitted notification. -/
def checkOverallStockLevel (notifyAE notifyE : Bool) (threshold total : Nat)
    (ae e : Bool) : Bool × Bool × Option Note :=
  if notifyAE && decide (0 < total) && decide (total ≤ threshold) && !ae then
    (true, false, some Note.almostEmpty)
  else if notifyE && decide (total = 0) && !e then
    (true, true, some Note.empty)
  else if threshold < total then
    (false, false, none)
  else
    (ae, e, none)

/-- `checkOverallStockLevel` applied to the machine state: the total is
computed by `countAvailableSlots` (line 2059). -/
def machineCheckStock (m : Machine) : Machine :=
  let total := countAvailableSlots m.activeSlots m.slotAvailable m.slotLocked
  let r := checkOverallStockLevel m.notifyAE m.notifyE m.threshold total m.aeSent m.eSent
  { m with aeSent := r.1, eSent := r.2.1, notes := m.notes ++ r.2.2.toList }

/-! ### Actuator driver (lines 1068-1099) -/

/-- `controlSlotRelay` (lines 1068-1099): updates the in-memory bitmask for
the slot, then attempts the I2C write (`i2cOK` is the bus acknowledgement).
Returns the success flag together with the new state. -/
def controlSlotRelay (i2cOK : Bool) (now : Nat) (slot : Int) (activate : Bool)
    (m : Machine) : Bool × Machine :=
  if slot < 0 ∨ (MAX_SLOTS : Int) ≤ slot then
    (false, m)
  else
    let bit := slot.toNat
    let mask :=
      if activate then m.relayMask ||| (1 <<< bit)
      else m.relayMask &&& (65535 ^^^ (1 <<< bit))
    let m1 := { m with relayMask := mask }
    if i2cOK then (true, { m1 with lastRelayChangeTime := now })
    else (false, m1)

/-! ### Dispense sequencer (lines 1105-1203) -/

/-- `scheduleDispense` (lines 1105-1133). `busOnline` is the result of the
`checkRelayBoardOnline` probe (lines 340-347). -/
def scheduleDispense (busOnline : Bool) (now : Nat) (slotToDispense : Int)
    (m : Machine) : Machine :=
  if m.job.active then m
  else if !busOnline then displayErrorMessage ErrMsg.relayBoardOffline now m
  else
    { m with job := ⟨true, slotToDispense, now, false⟩,
             sysState := SysState.userInteraction, displayNeedsUpdate := true }

/-- Step 2 of `processDispenseJob` (lines 1195-1203): deactivate the relay
once the open duration has elapsed and finalize the job. -/
def dispenseStep2 (i2cOK : Bool) (relayOnTime now : Nat) (m : Machine) : Machine :=
  if m.job.relayActivated = true ∧ relayOnTime ≤ now - m.job.startTime then
    let r := controlSlotRelay i2cOK now m.job.slot false m
    let m1 := { r.2 with job := { r.2.job with active := false }, billInhibit := false }
    resetDisplayToDefault now m1
  else m

/-- Sale notification of step 1 (lines 1170-1173). -/
def maybeSaleNote (m : Machine) : Machine :=
  if m.notifyOnSale = true then { m with notes := m.notes ++ [Note.sale m.job.slot] }
  else m

/-- `processDispenseJob` (lines 1138-1203). `relayOnTime` is the mutable
global `DISPENSE_RELAY_ON_TIME`; `i2cOK` is the I2C bus acknowledgement for
any write issued during this tick. -/
def processDispenseJob (i2cOK : Bool) (relayOnTime now : Nat) (m : Machine) : Machine :=
  if m.job.active = false then m
  else
    let m1 := { m with sysState := SysState.userInteraction }
    if m1.job.relayActivated = false then
      -- Step 1: activate relay and process payment (lines 1145-1192)
      let m2 := { m1 with billInhibit := true }
      let r := controlSlotRelay i2cOK now m2.job.slot true m2
      if r.1 = false then
        let m3 := displayErrorMessage ErrMsg.relayActivationFailed now r.2
        let m4 := { m3 with job := { m3.job with active := false }, billInhibit := false }
        resetDisplayToDefault now m4
      else
        let m3 := r.2
        let c1 := m3.credit - m3.slotPrices m3.job.slot.toNat
        let c2 := if c1 < 0 then 0 else c1
        let avail1 := fun j => if j = m3.job.slot.toNat then false else m3.slotAvailable j
        let m4 := { m3 with credit := c2, slotAvailable := avail1 }
        let m5 := maybeSaleNote m4
        let m6 := machineCheckStock m5
        let m7 := { m6 with job := { m6.job with relayActivated := true, startTime := now },
                            displayNeedsUpdate := true }
        dispenseStep2 i2cOK relayOnTime now m7
    else
      dispenseStep2 i2cOK relayOnTime now m1

/-! ### Input resolver: keypad debounce (lines 769-809)

The raw matrix scan is abstracted by its result: the key code currently
sensed (`0` = no key pressed), exactly what the row/column loop of
`manualGetKeyState` computes before the debounce logic. -/

structure KeyState where
  lastPhys : Nat          -- lastPhysicallyPressedKey
  lastRet : Nat           -- lastReturnedKey
  lastKeyPressTime : Nat
deriving DecidableEq, Repr

/-- Debounce logic of `manualGetKeyState` (lines 788-808): returns the
emitted key (`0` = none) and the new debounce state. -/
def manualGetKeyState (scan now : Nat) (s : KeyState) : Nat × KeyState :=
  if scan ≠ s.lastPhys then
    (0, { lastPhys := scan, lastRet := if scan = 0 then 0 else s.lastRet,
          lastKeyPressTime := now })
  else if scan ≠ 0 ∧ KEYPAD_DEBOUNCE_PERIOD < now - s.lastKeyPressTime ∧ scan ≠ s.lastRet then
    (scan, { s with lastRet := scan })
  else
    (0, s)

/-- Runs `manualGetKeyState` over a list of (scan, time) samples, collecting
the emitted (nonzero) keys in order. -/
def runKeys (s : KeyState) : List (Nat × Nat) → List Nat × KeyState
  | [] => ([], s)
  | (scan, t) :: rest =>
      let r := manualGetKeyState scan t s
      let r2 := runKeys r.2 rest
      ((if r.1 = 0 then [] else [r.1]) ++ r2.1, r2.2)

/-- A continuous physical press of key `k`: first sensed at time `t0`, then
sensed again at the times in `ts`. -/
def holdSamples (k t0 : Nat) (ts : List Nat) : List (Nat × Nat) :=
  (k, t0) :: ts.map (fun t => (k, t))

/-- The debounce state after boot / after a release has been processed. -/
def idleKeys : KeyState := ⟨0, 0, 0⟩

/-! ### Input resolver: selection (lines 971-1060) -/

/-- Arduino `String::toInt` on the digit buffer. -/
def bufToInt (l : List Nat) : Nat :=
  l.foldl (fun a d => 10 * a + d) 0

/-- `processKeypadSelection` (lines 1023-1060). -/
def processKeypadSelection (now : Nat) (m : Machine) : Machine :=
  if m.buffer = [] then m
  else
    let slotNum := bufToInt m.buffer
    if 1 ≤ slotNum ∧ slotNum ≤ m.activeSlots then
      let m1 := { m with selectedSlot := (slotNum : Int) - 1, slotSelectedTime := now,
                         sysState := SysState.userInteraction }
      let isFinal : Bool :=
        (decide (m1.buffer.length = 2) || decide (m1.activeSlots < 10)) ||
          (decide (m1.buffer.length = 1) && decide (10 ≤ m1.activeSlots) &&
            decide (m1.activeSlots / 10 < slotNum))
      let m2 := if isFinal then { m1 with buffer := [] } else m1
      { m2 with displayNeedsUpdate := true }
    else
      if m.buffer.length = 2 then
        let m1 := displayErrorMessage ErrMsg.invalidSlot now m
        { m1 with selectedSlot := -1, buffer := [], displayNeedsUpdate := true }
      else { m with displayNeedsUpdate := true }

/-- A resolved keypad key, as dispatched by `processKeypad`. -/
inductive Key where
  | digit (d : Nat)
  | hash
  | star
deriving DecidableEq, Repr

/-- `processKeypad` (lines 971-1018), taking the key already resolved by
`manualGetKeyState`. `busOnline` is the relay-board probe result consulted
if a purchase is scheduled. -/
def processKeypad (key : Key) (busOnline : Bool) (now : Nat) (m : Machine) : Machine :=
  let m1 := { m with lastUserInteractionTime := now, sysState := SysState.userInteraction }
  match key with
  | Key.digit d =>
      let m2 := { m1 with lastKeypadInputTime := now }
      let buf := if 2 ≤ m2.buffer.length then [] else m2.buffer
      let m3 := { m2 with buffer := buf ++ [d] }
      let m4 := processKeypadSelection now m3
      { m4 with displayNeedsUpdate := true }
  | Key.hash =>
      let m2 := if 0 < m1.buffer.length then processKeypadSelection now m1 else m1
      let m3 :=
        if m2.selectedSlot ≠ -1 then
          if m2.slotLocked m2.selectedSlot.toNat then
            displayErrorMessage ErrMsg.slotLocked now m2
          else if m2.slotAvailable m2.selectedSlot.toNat = false then
            displayErrorMessage ErrMsg.slotEmpty now m2
          else if m2.slotPrices m2.selectedSlot.toNat ≤ m2.credit then
            scheduleDispense busOnline now m2.selectedSlot m2
          else
            displayErrorMessage ErrMsg.insufficientCredit now m2
        else displayErrorMessage ErrMsg.noSlotChosen now m2
      { m3 with buffer := [], displayNeedsUpdate := true }
  | Key.star =>
      let m2 := resetDisplayToDefault now m1
      { m2 with displayNeedsUpdate := true }

/-! ### Pulse accumulator: coin channel (lines 424-427, 1209-1240)

The state projects the globals `coinPulseCount`, `lastCoinPulseTime` and
`credit`, plus a ghost log of the drained pulse groups. -/

structure CoinAcc where
  count : Nat        -- coinPulseCount
  lastPulse : Nat    -- lastCoinPulseTime
  credit : ℚ
  drains : List Nat  -- ghost: pulse counts drained from the counter
deriving DecidableEq, Repr

/-- `coinAcceptorISR` (lines 424-427). -/
def coinAcceptorISR (now : Nat) (s : CoinAcc) : CoinAcc :=
  { s with count := s.count + 1, lastPulse := now }

/-- `processAcceptedCoin` (lines 1209-1240). `delay` is the mutable global
`COIN_PROCESSING_DELAY`. -/
def processAcceptedCoin (delay now : Nat) (s : CoinAcc) : CoinAcc :=
  if 0 < s.count ∧ delay < now - s.lastPulse then
    let n := s.count
    let s1 := { s with count := 0, drains := s.drains ++ [n] }
    if 0 < n ∧ n < pulseValues.length then
      let v := pulseValues.getD n 0
      if 0 < v then { s1 with credit := s1.credit + (v : ℚ) / 100 } else s1
    else s1
  else s

/-- Events seen by the coin channel: an interrupt edge or a scheduler tick. -/
inductive CoinEv where
  | pulse (t : Nat)
  | tick (t : Nat)
deriving DecidableEq, Repr

def coinStep (delay : Nat) (s : CoinAcc) (e : CoinEv) : CoinAcc :=
  match e with
  | CoinEv.pulse t => coinAcceptorISR t s
  | CoinEv.tick t => processAcceptedCoin delay t s

def runCoin (delay : Nat) (s : CoinAcc) (evs : List CoinEv) : CoinAcc :=
  evs.foldl (coinStep delay) s

/-- Number of pulse events in a trace. -/
def numPulses : List CoinEv → Nat
  | [] => 0
  | CoinEv.pulse _ :: rest => numPulses rest + 1
  | CoinEv.tick _ :: rest => numPulses rest

/-- Time of the last pulse event in a trace, if any. -/
def lastPulseT : List CoinEv → Option Nat
  | [] => none
  | CoinEv.pulse t :: rest => some ((lastPulseT rest).getD t)
  | CoinEv.tick _ :: rest => lastPulseT rest

/-- Grouping discipline of a trace: event times are nondecreasing (starting
from `curT`) and, once a pulse has occurred (`hasP`, last one at `lastP`),
every subsequent event arrives within `d` of the last pulse. -/
def grouped (d : Nat) : Nat → Nat → Bool → List CoinEv → Bool
  | _, _, _, [] => true
  | curT, lastP, hasP, CoinEv.pulse t :: evs =>
      decide (curT ≤ t) && (!hasP || decide (t ≤ lastP + d)) && grouped d t t true evs
  | curT, lastP, hasP, CoinEv.tick t :: evs =>
      decide (curT ≤ t) && (!hasP || decide (t ≤ lastP + d)) && grouped d t lastP hasP evs

/-! ### Pulse accumulator: bill channel (lines 432-441, 1245-1288) -/

structure BillAcc where
  count : Nat        -- billAcceptorPulseCount
  lastEdge : Nat     -- lastBillPulseEdgeTime
  credit : ℚ
  inhibit : Bool     -- level of BILL_INHIBIT_PIN
deriving DecidableEq, Repr

/-- `processBillAcceptorPulses` (lines 1245-1288). `groupTimeout` is the
mutable global `BILL_GROUP_PROCESSING_TIMEOUT_MS`. -/
def processBillAcceptorPulses (groupTimeout now lastRelayChangeTime : Nat)
    (s : BillAcc) : BillAcc :=
  if now - lastRelayChangeTime < 1000 then
    { s with count := 0 }
  else
    let s1 :=
      if 0 < s.count ∧ groupTimeout < now - s.lastEdge then
        let n := s.count
        let s1 := { s with count := 0 }
        if 0 < n ∧ n < billValues.length then
          let v := billValues.getD n 0
          if 0 < v then { s1 with credit := s1.credit + (v : ℚ) } else s1
        else s1
      else s
    { s1 with inhibit := decide (0 < s1.count) }

/-! ### Administrative credit handlers (lines 1429-1459) -/

/-- `handleAddCreditWeb` (lines 1429-1444): adds a signed amount to the
credit when authenticated and the amount is nonzero. `amount` is the parsed
"amount" form argument (`none` = argument missing). -/
def handleAddCreditWeb (isAuthenticated : Bool) (amount : Option ℚ)
    (m : Machine) : Machine :=
  if !isAuthenticated then m
  else
    match amount with
    | none => m
    | some a => if a ≠ 0 then { m with credit := m.credit + a } else m

/-- `handleResetCreditWeb` (lines 1449-1459). -/
def handleResetCreditWeb (isAuthenticated : Bool) (m : Machine) : Machine :=
  if !isAuthenticated then m
  else { m with credit := 0 }

/-! ### A concrete machine state for witnesses -/

def testMachine : Machine where
  credit := 5
  slotPrices := fun _ => 2
  slotAvailable := fun _ => true
  slotLocked := fun _ => false
  activeSlots := 16
  job := ⟨false, -1, 0, false⟩
  relayMask := 0
  lastRelayChangeTime := 0
  billInhibit := false
  selectedSlot := -1
  buffer := []
  slotSelectedTime := 0
  lastKeypadInputTime := 0
  lastUserInteractionTime := 0
  sysState := SysState.idle
  aeSent := false
  eSent := false
  notifyAE := true
  notifyE := true
  notifyOnSale := false
  threshold := 5
  displayNeedsUpdate := false
  errors := []
  notes := []

/-! ### Helper lemmas on field preservation -/

theorem controlSlotRelay_credit (i : Bool) (now : Nat) (slot : Int) (a : Bool)
    (m : Machine) : (controlSlotRelay i now slot a m).2.credit = m.credit := by
  unfold controlSlotRelay
  split
  · rfl
  · dsimp only
    split <;> rfl

theorem controlSlotRelay_slotAvailable (i : Bool) (now : Nat) (slot : Int) (a : Bool)
    (m : Machine) : (controlSlotRelay i now slot a m).2.slotAvailable = m.slotAvailable := by
  unfold controlSlotRelay
  split
  · rfl
  · dsimp only
    split <;> rfl

theorem controlSlotRelay_job (i : Bool) (now : Nat) (slot : Int) (a : Bool)
    (m : Machine) : (controlSlotRelay i now slot a m).2.job = m.job := by
  unfold controlSlotRelay
  split
  · rfl
  · dsimp only
    split <;> rfl

theorem controlSlotRelay_errors (i : Bool) (now : Nat) (slot : Int) (a : Bool)
    (m : Machine) : (controlSlotRelay i now slot a m).2.errors = m.errors := by
  unfold controlSlotRelay
  split
  · rfl
  · dsimp only
    split <;> rfl

theorem controlSlotRelay_fails (now : Nat) (slot : Int) (a : Bool)
    (m : Machine) : (controlSlotRelay false now slot a m).1 = false := by
  unfold controlSlotRelay
  split
  · rfl
  · rfl

theorem testBit_set_mask (mask k : Nat) : (mask ||| (1 <<< k)).testBit k = true := by
  rw [Nat.testBit_lor, Nat.shiftLeft_eq, one_mul, Nat.testBit_two_pow_self]
  simp

theorem testBit_clear_mask (mask k : Nat) (hk : k < 16) :
    (mask &&& (65535 ^^^ (1 <<< k))).testBit k = false := by
  have h65535 : Nat.testBit 65535 k = true := by
    have h2 : (65535 : Nat) = 2 ^ 16 - 1 := by norm_num
    rw [h2, Nat.testBit_two_pow_sub_one]
    simp [hk]
  rw [Nat.testBit_land, Nat.testBit_xor, Nat.shiftLeft_eq, one_mul, h65535,
    Nat.testBit_two_pow_self]
  simp

/-- The relay bitmask bit for an in-range slot always reflects the
requested value after `controlSlotRelay`, whether or not the I2C write was
acknowledged. -/
theorem controlSlotRelay_mask (i : Bool) (now : Nat) (slot : Int) (a : Bool)
    (m : Machine) (h0 : 0 ≤ slot) (h1 : slot < (MAX_SLOTS : Int)) :
    (controlSlotRelay i now slot a m).2.relayMask.testBit slot.toNat = a := by
  have hrange : ¬(slot < 0 ∨ (MAX_SLOTS : Int) ≤ slot) := by
    push_neg
    exact ⟨h0, h1⟩
  have hk : slot.toNat < 16 := by
    have h16 : slot < 16 := h1
    omega
  unfold controlSlotRelay
  rw [if_neg hrange]
  dsimp only
  have hset := testBit_set_mask m.relayMask slot.toNat
  have hclear := testBit_clear_mask m.relayMask slot.toNat hk
  cases a <;> cases i <;> simp [hset, hclear]

/-! ### C1: mutual exclusion of dispense jobs -/

/-- C1: while a dispense job is active, a second call to `scheduleDispense`
is rejected (the state is returned unchanged): Credit, the job's fields and
every slot's price/available/locked state are untouched. -/
theorem scheduleDispense_mutual_exclusion (b : Bool) (now : Nat) (slot : Int)
    (m : Machine) (h : m.job.active = true) :
    scheduleDispense b now slot m = m ∧
    (scheduleDispense b now slot m).credit = m.credit ∧
    (scheduleDispense b now slot m).job = m.job ∧
    (∀ i, (scheduleDispense b now slot m).slotPrices i = m.slotPrices i) ∧
    (∀ i, (scheduleDispense b now slot m).slotAvailable i = m.slotAvailable i) ∧
    (∀ i, (scheduleDispense b now slot m).slotLocked i = m.slotLocked i) := by
  have he : scheduleDispense b now slot m = m := by
    simp [scheduleDispense, h]
  refine ⟨he, ?_, ?_, ?_, ?_, ?_⟩ <;> rw [he] <;> simp

/-- C1 witness: a concrete active job; a second request for slot 5 at time
200 leaves the machine unchanged. -/
theorem scheduleDispense_mutual_exclusion_witness :
    ({ testMachine with job := ⟨true, 3, 100, false⟩ } : Machine).job.active = true ∧
    scheduleDispense true 200 5 { testMachine with job := ⟨true, 3, 100, false⟩ } =
      { testMachine with job := ⟨true, 3, 100, false⟩ } :=
  ⟨rfl, (scheduleDispense_mutual_exclusion true 200 5
      { testMachine with job := ⟨true, 3, 100, false⟩ } rfl).1⟩

/-! ### C10: relay bitmask updated before the bus write -/

/-- C10: for an in-range slot, `controlSlotRelay` records the requested
state in the in-memory bitmask before the I2C write is attempted, and on a
transmission failure it returns `false` without rolling the bit back. -/
theorem controlSlotRelay_mask_before_write (i2cOK : Bool) (now : Nat) (slot : Int)
    (activate : Bool) (m : Machine) (h0 : 0 ≤ slot) (h1 : slot < (MAX_SLOTS : Int)) :
    (controlSlotRelay i2cOK now slot activate m).2.relayMask.testBit slot.toNat
        = activate ∧
    (i2cOK = false → (controlSlotRelay i2cOK now slot activate m).1 = false) := by
  constructor
  · exact controlSlotRelay_mask i2cOK now slot activate m h0 h1
  · intro hi
    subst hi
    exact controlSlotRelay_fails now slot activate m

/-- C10 witness: slot 3, failed write: the mask records bit 3 set and the
call reports failure. -/
theorem controlSlotRelay_mask_before_write_witness :
    ((0 : Int) ≤ 3 ∧ (3 : Int) < (MAX_SLOTS : Int)) ∧
    ((controlSlotRelay false 7 3 true testMachine).2.relayMask.testBit
        (Int.toNat 3) = true ∧
      (false = false → (controlSlotRelay false 7 3 true testMachine).1 = false)) :=
  ⟨⟨by decide, by decide⟩,
    controlSlotRelay_mask_before_write false 7 3 true testMachine (by decide) (by decide)⟩

/-! ### C6: digit entry 1 then 6 with activeSlots = 16 -/

/-- C6: with `activeSlots = 16` and an empty buffer, pressing digit 1
provisionally selects slot 1 (index 0) and keeps the buffer; pressing 6
then makes the buffer denote 16, resolves the selection to slot 16
(index 15) and clears the buffer. -/
theorem keypad_digit_sequence_one_six (m : Machine) (b : Bool) (t1 t2 : Nat)
    (hA : m.activeSlots = 16) (hB : m.buffer = []) :
    (processKeypad (Key.digit 1) b t1 m).selectedSlot = 0 ∧
    (processKeypad (Key.digit 1) b t1 m).buffer = [1] ∧
    bufToInt [1, 6] = 16 ∧
    (processKeypad (Key.digit 6) b t2 (processKeypad (Key.digit 1) b t1 m)).selectedSlot
      = 15 ∧
    (processKeypad (Key.digit 6) b t2 (processKeypad (Key.digit 1) b t1 m)).buffer
      = [] := by
  have h1 : processKeypad (Key.digit 1) b t1 m =
      { m with lastUserInteractionTime := t1, sysState := SysState.userInteraction,
               lastKeypadInputTime := t1, buffer := [1], selectedSlot := 0,
               slotSelectedTime := t1, displayNeedsUpdate := true } := by
    simp [processKeypad, processKeypadSelection, bufToInt, hA, hB]
  have h2 : processKeypad (Key.digit 6) b t2 (processKeypad (Key.digit 1) b t1 m) =
      { m with lastUserInteractionTime := t2, sysState := SysState.userInteraction,
               lastKeypadInputTime := t2, buffer := [], selectedSlot := 15,
               slotSelectedTime := t2, displayNeedsUpdate := true } := by
    rw [h1]
    simp [processKeypad, processKeypadSelection, bufToInt, hA]
  rw [h2, h1]
  refine ⟨rfl, rfl, by decide, rfl, rfl⟩

/-- C6 witness: the scenario on the concrete `testMachine`. -/
theorem keypad_digit_sequence_one_six_witness :
    (processKeypad (Key.digit 1) true 10 testMachine).selectedSlot = 0 ∧
    (processKeypad (Key.digit 1) true 10 testMachine).buffer = [1] ∧
    bufToInt [1, 6] = 16 ∧
    (processKeypad (Key.digit 6) true 20
        (processKeypad (Key.digit 1) true 10 testMachine)).selectedSlot = 15 ∧
    (processKeypad (Key.digit 6) true 20
        (processKeypad (Key.digit 1) true 10 testMachine)).buffer = [] :=
  keypad_digit_sequence_one_six testMachine true 10 20 rfl rfl

/-! ### C5: entering "9", "9" with activeSlots = 16

The claim says two presses of digit 9 (denoting slot 99) surface an
invalid-slot error and clear the selection.  In the code the first 9 is
already final (early-termination heuristic `9 > activeSlots / 10`), so the
buffer never reaches two digits: each press simply selects slot 9 and no
error is surfaced. -/

/-- C5 counterexample: on a concrete machine with `activeSlots = 16`, empty
buffer and no errors, pressing digit 9 twice surfaces no error, leaves slot
9 (index 8) selected (not cleared to -1), and never accumulates the buffer
"99". -/
theorem keypad_nine_nine_counterexample :
    (processKeypad (Key.digit 9) true 2
        (processKeypad (Key.digit 9) true 1 testMachine)).errors = [] ∧
    (processKeypad (Key.digit 9) true 2
        (processKeypad (Key.digit 9) true 1 testMachine)).selectedSlot = 8 ∧
    (processKeypad (Key.digit 9) true 1 testMachine).buffer = [] ∧
    (processKeypad (Key.digit 9) true 2
        (processKeypad (Key.digit 9) true 1 testMachine)).buffer = [] := by
  refine ⟨?_, ?_, ?_, ?_⟩ <;>
    simp [processKeypad, processKeypadSelection, bufToInt, testMachine]

/-- C5 amended: with `activeSlots = 16` a press of digit 9 immediately
finalizes the selection of slot 9 (index 8) and clears the buffer, so a
second 9 re-selects slot 9 and no invalid-slot error ever occurs; the
invalid-two-digit error path (error surfaced, selection cleared to -1,
buffer cleared) is taken instead for a genuine two-digit entry denoting no
valid slot, such as 1 then 7. -/
theorem keypad_two_digit_invalid_amended (m : Machine) (b : Bool) (t1 t2 : Nat)
    (hA : m.activeSlots = 16) (hB : m.buffer = []) :
    ((processKeypad (Key.digit 9) b t1 m).selectedSlot = 8 ∧
     (processKeypad (Key.digit 9) b t1 m).buffer = [] ∧
     (processKeypad (Key.digit 9) b t2 (processKeypad (Key.digit 9) b t1 m)).selectedSlot
        = 8 ∧
     (processKeypad (Key.digit 9) b t2 (processKeypad (Key.digit 9) b t1 m)).buffer
        = [] ∧
     (processKeypad (Key.digit 9) b t2 (processKeypad (Key.digit 9) b t1 m)).errors
        = m.errors) ∧
    ((processKeypad (Key.digit 7) b t2 (processKeypad (Key.digit 1) b t1 m)).errors
        = m.errors ++ [ErrMsg.invalidSlot] ∧
     (processKeypad (Key.digit 7) b t2 (processKeypad (Key.digit 1) b t1 m)).selectedSlot
        = -1 ∧
     (processKeypad (Key.digit 7) b t2 (processKeypad (Key.digit 1) b t1 m)).buffer
        = []) := by
  have h9 : processKeypad (Key.digit 9) b t1 m =
      { m with lastUserInteractionTime := t1, sysState := SysState.userInteraction,
               lastKeypadInputTime := t1, buffer := [], selectedSlot := 8,
               slotSelectedTime := t1, displayNeedsUpdate := true } := by
    simp [processKeypad, processKeypadSelection, bufToInt, hA, hB]
  have h99 : processKeypad (Key.digit 9) b t2 (processKeypad (Key.digit 9) b t1 m) =
      { m with lastUserInteractionTime := t2, sysState := SysState.userInteraction,
               lastKeypadInputTime := t2, buffer := [], selectedSlot := 8,
               slotSelectedTime := t2, displayNeedsUpdate := true } := by
    rw [h9]
    simp [processKeypad, processKeypadSelection, bufToInt, hA]
  have h1 : processKeypad (Key.digit 1) b t1 m =
      { m with lastUserInteractionTime := t1, sysState := SysState.userInteraction,
               lastKeypadInputTime := t1, buffer := [1], selectedSlot := 0,
               slotSelectedTime := t1, displayNeedsUpdate := true } := by
    simp [processKeypad, processKeypadSelection, bufToInt, hA, hB]
  have h17 : processKeypad (Key.digit 7) b t2 (processKeypad (Key.digit 1) b t1 m) =
      { m with lastUserInteractionTime := t2 + 3000,
               sysState := SysState.idle,
               lastKeypadInputTime := t2, buffer := [], selectedSlot := -1,
               errors := m.errors ++ [ErrMsg.invalidSlot],
               slotSelectedTime := t1,
               displayNeedsUpdate := true } := by
    rw [h1]
    simp [processKeypad, processKeypadSelection, bufToInt, hA, displayErrorMessage,
      resetDisplayToDefault]
  rw [h99, h17, h9]
  refine ⟨⟨rfl, rfl, rfl, rfl, rfl⟩, rfl, rfl, rfl⟩

/-- C5 amended witness: the scenario on the concrete `testMachine`. -/
theorem keypad_two_digit_invalid_amended_witness :
    ((processKeypad (Key.digit 9) true 10 testMachine).selectedSlot = 8 ∧
     (processKeypad (Key.digit 9) true 10 testMachine).buffer = [] ∧
     (processKeypad (Key.digit 9) true 20
        (processKeypad (Key.digit 9) true 10 testMachine)).selectedSlot = 8 ∧
     (processKeypad (Key.digit 9) true 20
        (processKeypad (Key.digit 9) true 10 testMachine)).buffer = [] ∧
     (processKeypad (Key.digit 9) true 20
        (processKeypad (Key.digit 9) true 10 testMachine)).errors = testMachine.errors) ∧
    ((processKeypad (Key.digit 7) true 20
        (processKeypad (Key.digit 1) true 10 testMachine)).errors
        = testMachine.errors ++ [ErrMsg.invalidSlot] ∧
     (processKeypad (Key.digit 7) true 20
        (processKeypad (Key.digit 1) true 10 testMachine)).selectedSlot = -1 ∧
     (processKeypad (Key.digit 7) true 20
        (processKeypad (Key.digit 1) true 10 testMachine)).buffer = []) :=
  keypad_two_digit_invalid_amended testMachine true 10 20 rfl rfl

/-! ### C3: credit non-negativity -/

theorem controlSlotRelay_slotPrices (i : Bool) (now : Nat) (slot : Int) (a : Bool)
    (m : Machine) : (controlSlotRelay i now slot a m).2.slotPrices = m.slotPrices := by
  unfold controlSlotRelay
  split
  · rfl
  · dsimp only
    split <;> rfl

theorem machineCheckStock_credit (m : Machine) :
    (machineCheckStock m).credit = m.credit := rfl

theorem machineCheckStock_job (m : Machine) :
    (machineCheckStock m).job = m.job := rfl

theorem machineCheckStock_slotAvailable (m : Machine) :
    (machineCheckStock m).slotAvailable = m.slotAvailable := rfl

theorem maybeSaleNote_credit (m : Machine) : (maybeSaleNote m).credit = m.credit := by
  unfold maybeSaleNote
  split <;> rfl

theorem maybeSaleNote_job (m : Machine) : (maybeSaleNote m).job = m.job := by
  unfold maybeSaleNote
  split <;> rfl

theorem maybeSaleNote_slotAvailable (m : Machine) :
    (maybeSaleNote m).slotAvailable = m.slotAvailable := by
  unfold maybeSaleNote
  split <;> rfl

theorem dispenseStep2_credit (i : Bool) (r now : Nat) (m : Machine) :
    (dispenseStep2 i r now m).credit = m.credit := by
  unfold dispenseStep2
  split
  · simp only [resetDisplayToDefault]
    exact controlSlotRelay_credit i now m.job.slot false m
  · rfl

/-- Credit mutation performed by a successful step 1 of
`processDispenseJob`: the price is subtracted and clamped at zero. -/
theorem processDispenseJob_credit_eq (i : Bool) (r now : Nat) (m : Machine)
    (hact : m.job.active = true) (hrel : m.job.relayActivated = false)
    (hi : i = true) (h0 : 0 ≤ m.job.slot) (h1 : m.job.slot < (MAX_SLOTS : Int)) :
    (processDispenseJob i r now m).credit =
      (if m.credit - m.slotPrices m.job.slot.toNat < 0 then 0
       else m.credit - m.slotPrices m.job.slot.toNat) := by
  subst hi
  have hrange : ¬(m.job.slot < 0 ∨ (MAX_SLOTS : Int) ≤ m.job.slot) := by
    push_neg
    exact ⟨h0, h1⟩
  simp [processDispenseJob, controlSlotRelay, hact, hrel, hrange,
    dispenseStep2_credit, machineCheckStock_credit, maybeSaleNote_credit]

/-- C3 counterexample: an administrative credit adjustment of -5 EUR with
Credit = 0 leaves Credit negative — `handleAddCreditWeb` does not clamp. -/
theorem credit_admin_adjust_counterexample :
    (handleAddCreditWeb true (some (-5)) { testMachine with credit := 0 }).credit < 0 := by
  norm_num [handleAddCreditWeb, testMachine]

/-- C3 amended: a committed purchase subtracts the slot's price clamped at
zero, and Credit stays non-negative across purchases, accepted coin and
bill payments and the administrative credit reset; the administrative
credit adjustment (`handleAddCreditWeb`), however, adds a signed amount
without clamping and can drive Credit negative. -/
theorem credit_nonneg_amended :
    (∀ (i : Bool) (r now : Nat) (m : Machine), 0 ≤ m.credit →
        0 ≤ (processDispenseJob i r now m).credit) ∧
    (∀ (delay now : Nat) (s : CoinAcc), 0 ≤ s.credit →
        0 ≤ (processAcceptedCoin delay now s).credit) ∧
    (∀ (g now lrc : Nat) (s : BillAcc), 0 ≤ s.credit →
        0 ≤ (processBillAcceptorPulses g now lrc s).credit) ∧
    (∀ (auth : Bool) (m : Machine), 0 ≤ m.credit →
        0 ≤ (handleResetCreditWeb auth m).credit) ∧
    (∀ (i : Bool) (r now : Nat) (m : Machine),
        m.job.active = true → m.job.relayActivated = false → i = true →
        0 ≤ m.job.slot → m.job.slot < (MAX_SLOTS : Int) →
        (processDispenseJob i r now m).credit =
          (if m.credit - m.slotPrices m.job.slot.toNat < 0 then 0
           else m.credit - m.slotPrices m.job.slot.toNat)) := by
  refine ⟨?_, ?_, ?_, ?_, ?_⟩
  · intro i r now m h
    unfold processDispenseJob
    split
    · exact h
    · dsimp only
      split
      · split
        · simp only [displayErrorMessage, resetDisplayToDefault, controlSlotRelay_credit]
          exact h
        · simp only [dispenseStep2_credit, machineCheckStock_credit, maybeSaleNote_credit]
          split
          · exact le_refl 0
          · rename_i hneg
            exact le_of_not_lt hneg
      · simp only [dispenseStep2_credit]
        exact h
  · intro delay now s h
    unfold processAcceptedCoin
    split
    · dsimp only
      split
      · split
        · rename_i hv
          have hv2 : (0 : ℚ) ≤ (pulseValues.getD s.count 0 : ℚ) / 100 := by
            have : (0 : ℚ) ≤ (pulseValues.getD s.count 0 : ℚ) := by
              exact_mod_cast le_of_lt hv
            positivity
          dsimp only
          linarith
        · exact h
      · exact h
    · exact h
  · intro g now lrc s h
    unfold processBillAcceptorPulses
    split
    · exact h
    · dsimp only
      split
      · split
        · split
          · rename_i hv
            have hv2 : (0 : ℚ) ≤ (billValues.getD s.count 0 : ℚ) := by
              exact_mod_cast le_of_lt hv
            dsimp only
            linarith
          · exact h
        · exact h
      · exact h
  · intro auth m h
    unfold handleResetCreditWeb
    split
    · exact h
    · exact le_refl 0
  · intro i r now m hact hrel hi h0 h1
    exact processDispenseJob_credit_eq i r now m hact hrel hi h0 h1

/-- C3 amended witness: concrete instances of the non-negativity parts and
of the clamped subtraction (price 2, credit 5 gives credit 3). -/
theorem credit_nonneg_amended_witness :
    ((0 : ℚ) ≤ testMachine.credit ∧
      0 ≤ (processDispenseJob true 5000 100 testMachine).credit) ∧
    ((0 : ℚ) ≤ (⟨3, 0, 5, []⟩ : CoinAcc).credit ∧
      0 ≤ (processAcceptedCoin 150 500 ⟨3, 0, 5, []⟩).credit) ∧
    (({ testMachine with job := ⟨true, 3, 100, false⟩ } : Machine).job.active = true ∧
      (processDispenseJob true 5000 100
          { testMachine with job := ⟨true, 3, 100, false⟩ }).credit =
        (if ({ testMachine with job := ⟨true, 3, 100, false⟩ } : Machine).credit -
              ({ testMachine with job := ⟨true, 3, 100, false⟩ } : Machine).slotPrices
                (Int.toNat 3) < 0 then 0
         else ({ testMachine with job := ⟨true, 3, 100, false⟩ } : Machine).credit -
              ({ testMachine with job := ⟨true, 3, 100, false⟩ } : Machine).slotPrices
                (Int.toNat 3))) :=
  ⟨⟨by decide, credit_nonneg_amended.1 true 5000 100 testMachine (by decide)⟩,
   ⟨by decide, credit_nonneg_amended.2.1 150 500 ⟨3, 0, 5, []⟩ (by decide)⟩,
   ⟨rfl, credit_nonneg_amended.2.2.2.2 true 5000 100
      { testMachine with job := ⟨true, 3, 100, false⟩ } rfl rfl rfl (by decide) (by decide)⟩⟩

/-! ### C2: single debit, abort paths debit nothing -/

/-- C2: a purchase debits Credit exactly once per confirmed eligible
request.  If the bus health probe of `scheduleDispense` fails, the request
aborts with an error, no job is created, and no debit or availability
change occurs; if the relay-activation step of `processDispenseJob` fails,
the job is cleared, the bill acceptor is re-enabled, an error is surfaced,
and no debit or availability change occurs.  On the successful activation
tick the debit (price, clamped at zero) happens and `relayActivated`
latches, after which no further tick ever changes Credit. -/
theorem purchase_single_debit_and_abort :
    (∀ (now : Nat) (slot : Int) (m : Machine), m.job.active = false →
      ((scheduleDispense false now slot m).credit = m.credit ∧
       (∀ i, (scheduleDispense false now slot m).slotAvailable i = m.slotAvailable i) ∧
       (scheduleDispense false now slot m).job.active = false ∧
       (scheduleDispense false now slot m).errors
          = m.errors ++ [ErrMsg.relayBoardOffline])) ∧
    (∀ (r now : Nat) (m : Machine), m.job.active = true →
      m.job.relayActivated = false →
      ((processDispenseJob false r now m).credit = m.credit ∧
       (∀ i, (processDispenseJob false r now m).slotAvailable i = m.slotAvailable i) ∧
       (processDispenseJob false r now m).job.active = false ∧
       (processDispenseJob false r now m).billInhibit = false ∧
       (processDispenseJob false r now m).errors
          = m.errors ++ [ErrMsg.relayActivationFailed])) ∧
    (∀ (r now : Nat) (m : Machine), m.job.active = true →
      m.job.relayActivated = false →
      0 ≤ m.job.slot → m.job.slot < (MAX_SLOTS : Int) → 0 < r →
      ((processDispenseJob true r now m).credit =
        (if m.credit - m.slotPrices m.job.slot.toNat < 0 then 0
         else m.credit - m.slotPrices m.job.slot.toNat) ∧
       (processDispenseJob true r now m).job.relayActivated = true ∧
       (processDispenseJob true r now m).job.active = true)) ∧
    (∀ (i : Bool) (r now : Nat) (m : Machine), m.job.relayActivated = true →
      (processDispenseJob i r now m).credit = m.credit) := by
  refine ⟨?_, ?_, ?_, ?_⟩
  · intro now slot m h
    refine ⟨?_, ?_, ?_, ?_⟩ <;>
      simp [scheduleDispense, displayErrorMessage, resetDisplayToDefault, h]
  · intro r now m hact hrel
    refine ⟨?_, ?_, ?_, ?_, ?_⟩ <;>
      simp [processDispenseJob, hact, hrel, controlSlotRelay_fails,
        displayErrorMessage, resetDisplayToDefault, controlSlotRelay_credit,
        controlSlotRelay_slotAvailable, controlSlotRelay_job, controlSlotRelay_errors]
  · intro r now m hact hrel h0 h1 hr
    have hrange : ¬(m.job.slot < 0 ∨ (MAX_SLOTS : Int) ≤ m.job.slot) := by
      push_neg
      exact ⟨h0, h1⟩
    have hr0 : ¬(r ≤ 0) := by omega
    refine ⟨processDispenseJob_credit_eq true r now m hact hrel rfl h0 h1, ?_, ?_⟩ <;>
      simp [processDispenseJob, controlSlotRelay, hact, hrel, hrange, dispenseStep2,
        machineCheckStock_job, maybeSaleNote_job, hr0]
  · intro i r now m hrel
    cases hja : m.job.active with
    | false => simp [processDispenseJob, hja]
    | true => simp [processDispenseJob, hja, hrel, dispenseStep2_credit]

/-- C2 witness: concrete instances of the probe-failure abort and of the
single successful debit. -/
theorem purchase_single_debit_and_abort_witness :
    testMachine.job.active = false ∧
    (scheduleDispense false 50 3 testMachine).credit = testMachine.credit ∧
    (scheduleDispense false 50 3 testMachine).errors =
      testMachine.errors ++ [ErrMsg.relayBoardOffline] ∧
    (processDispenseJob true 5000 100
        { testMachine with job := ⟨true, 3, 100, false⟩ }).job.relayActivated = true := by
  have h1 := purchase_single_debit_and_abort.1 50 3 testMachine rfl
  have h3 := purchase_single_debit_and_abort.2.2.1 5000 100
    { testMachine with job := ⟨true, 3, 100, false⟩ } rfl rfl (by decide) (by decide)
    (by decide)
  exact ⟨rfl, h1.1, h1.2.2.2, h3.2.1⟩

/-! ### C9: the open window closes on the first late-enough tick -/

/-- C9: for an activated dispense job, on any tick at which the elapsed
time since the (restarted) start time has reached `relayOnTime`, however
late, `processDispenseJob` commands the actuator off (the relay bit is
cleared regardless of bus acknowledgement), re-enables the bill acceptor,
clears the job, and reverts display/selection to idle. -/
theorem dispense_open_to_idle (i2cOK : Bool) (relayOnTime now : Nat) (m : Machine)
    (hact : m.job.active = true) (hrel : m.job.relayActivated = true)
    (_hstart : m.job.startTime ≤ now)
    (helapsed : relayOnTime ≤ now - m.job.startTime)
    (h0 : 0 ≤ m.job.slot) (h1 : m.job.slot < (MAX_SLOTS : Int)) :
    (processDispenseJob i2cOK relayOnTime now m).job.active = false ∧
    (processDispenseJob i2cOK relayOnTime now m).billInhibit = false ∧
    (processDispenseJob i2cOK relayOnTime now m).selectedSlot = -1 ∧
    (processDispenseJob i2cOK relayOnTime now m).buffer = [] ∧
    (processDispenseJob i2cOK relayOnTime now m).sysState = SysState.idle ∧
    (processDispenseJob i2cOK relayOnTime now m).relayMask.testBit m.job.slot.toNat
      = false := by
  have hmask := controlSlotRelay_mask i2cOK now m.job.slot false
    ({ m with sysState := SysState.userInteraction } : Machine) h0 h1
  refine ⟨?_, ?_, ?_, ?_, ?_, ?_⟩ <;>
    simp [processDispenseJob, dispenseStep2, resetDisplayToDefault, hact, hrel,
      helapsed, hmask] at hmask ⊢

/-- C9 witness: a concrete open job (start 100, duration 5000) at tick
5100. -/
theorem dispense_open_to_idle_witness :
    (100 ≤ 5100 ∧ 5000 ≤ 5100 - 100) ∧
    ((processDispenseJob true 5000 5100
        { testMachine with job := ⟨true, 3, 100, true⟩, billInhibit := true,
                           relayMask := 8 }).job.active = false ∧
      (processDispenseJob true 5000 5100
        { testMachine with job := ⟨true, 3, 100, true⟩, billInhibit := true,
                           relayMask := 8 }).billInhibit = false ∧
      (processDispenseJob true 5000 5100
        { testMachine with job := ⟨true, 3, 100, true⟩, billInhibit := true,
                           relayMask := 8 }).relayMask.testBit (Int.toNat 3) = false) := by
  have h := dispense_open_to_idle true 5000 5100
    { testMachine with job := ⟨true, 3, 100, true⟩, billInhibit := true, relayMask := 8 }
    rfl rfl (by decide) (by decide) (by decide) (by decide)
  exact ⟨⟨by decide, by decide⟩, h.1, h.2.1, h.2.2.2.2.2⟩

/-! ### C8: stock-notification hysteresis -/

/-- State of the two notification latches plus a ghost log of emitted
stock notifications. -/
structure StockSt where
  ae : Bool          -- almostEmptyNotificationSent
  e : Bool           -- emptyNotificationSent
  sent : List Note
deriving DecidableEq, Repr

/-- One invocation of `checkOverallStockLevel` (with both notification
kinds enabled) on a snapshot of the slot arrays. -/
def stockStep (threshold activeSlots : Nat) (s : StockSt)
    (cfg : (Nat → Bool) × (Nat → Bool)) : StockSt :=
  let total := countAvailableSlots activeSlots cfg.1 cfg.2
  let r := checkOverallStockLevel true true threshold total s.ae s.e
  ⟨r.1, r.2.1, s.sent ++ r.2.2.toList⟩

/-- A sequence of `checkOverallStockLevel` invocations over successive
slot-array snapshots. -/
def runStock (threshold activeSlots : Nat) (s : StockSt)
    (cfgs : List ((Nat → Bool) × (Nat → Bool))) : StockSt :=
  cfgs.foldl (stockStep threshold activeSlots) s

theorem runStock_cons (T aS : Nat) (s : StockSt) (c : (Nat → Bool) × (Nat → Bool))
    (cs : List ((Nat → Bool) × (Nat → Bool))) :
    runStock T aS s (c :: cs) = runStock T aS (stockStep T aS s c) cs := rfl

/-- Once the almost-empty latch is set, invocations whose available-count
stays at or below the threshold keep it set and emit no further
almost-empty notification. -/
theorem runStock_ae_latched (T aS : Nat) (cfgs : List ((Nat → Bool) × (Nat → Bool))) :
    ∀ s : StockSt, s.ae = true →
      (∀ c ∈ cfgs, countAvailableSlots aS c.1 c.2 ≤ T) →
      (runStock T aS s cfgs).ae = true ∧
      (runStock T aS s cfgs).sent.count Note.almostEmpty
        = s.sent.count Note.almostEmpty := by
  induction cfgs with
  | nil =>
      intro s hs _
      exact ⟨hs, rfl⟩
  | cons c cs ih =>
      intro s hs hall
      have hc : countAvailableSlots aS c.1 c.2 ≤ T := hall c (List.mem_cons_self c cs)
      have hnot : ¬(T < countAvailableSlots aS c.1 c.2) := Nat.not_lt.mpr hc
      have hstep : (stockStep T aS s c).ae = true ∧
          (stockStep T aS s c).sent.count Note.almostEmpty
            = s.sent.count Note.almostEmpty := by
        unfold stockStep checkOverallStockLevel
        simp only [hs, Bool.not_true, Bool.and_false, Bool.false_and, if_neg hnot]
        simp [hnot]
        split
        · simp
        · simp
      rw [runStock_cons]
      have hrec := ih (stockStep T aS s c) hstep.1
        (fun x hx => hall x (List.mem_cons_of_mem c hx))
      exact ⟨hrec.1, by rw [hrec.2, hstep.2]⟩

/-- C8: with notifications enabled and threshold `T`, when the count of
available-and-unlocked slots drops into `(0, T]` the almost-empty
notification is emitted exactly once and stays latched across all further
invocations whose count stays at or below `T` (including drops to zero); a
count above `T` resets both latches; a count of exactly zero emits the
empty notification once and latches both flags. -/
theorem stock_notification_hysteresis (T aS : Nat) (e0 : Bool)
    (cfg : (Nat → Bool) × (Nat → Bool)) (cfgs : List ((Nat → Bool) × (Nat → Bool)))
    (h0 : 0 < countAvailableSlots aS cfg.1 cfg.2)
    (hT : countAvailableSlots aS cfg.1 cfg.2 ≤ T)
    (hrest : ∀ c ∈ cfgs, countAvailableSlots aS c.1 c.2 ≤ T) :
    ((runStock T aS ⟨false, e0, []⟩ (cfg :: cfgs)).sent.count Note.almostEmpty = 1 ∧
     (runStock T aS ⟨false, e0, []⟩ (cfg :: cfgs)).ae = true) ∧
    (∀ (ae e : Bool) (total : Nat), T < total →
      checkOverallStockLevel true true T total ae e = (false, false, none)) ∧
    (∀ ae : Bool,
      checkOverallStockLevel true true T 0 ae false = (true, true, some Note.empty)) ∧
    (∀ ae : Bool, checkOverallStockLevel true true T 0 ae true = (ae, true, none)) := by
  refine ⟨?_, ?_, ?_, ?_⟩
  · have h1 : stockStep T aS ⟨false, e0, []⟩ cfg = ⟨true, false, [Note.almostEmpty]⟩ := by
      simp [stockStep, checkOverallStockLevel, h0, hT]
    have h2 := runStock_ae_latched T aS cfgs ⟨true, false, [Note.almostEmpty]⟩ rfl hrest
    rw [runStock_cons, h1]
    refine ⟨by rw [h2.2]; rfl, h2.1⟩
  · intro ae e total hlt
    have hne : ¬(total = 0) := by omega
    have hnle : ¬(total ≤ T) := by omega
    simp [checkOverallStockLevel, hne, hnle, hlt]
  · intro ae
    simp [checkOverallStockLevel]
  · intro ae
    simp [checkOverallStockLevel]

def cfgLow : (Nat → Bool) × (Nat → Bool) := (fun i => decide (i < 3), fun _ => false)

def cfgEmpty : (Nat → Bool) × (Nat → Bool) := (fun _ => false, fun _ => false)

/-- C8 witness: counts 3, 0, 3 against threshold 5: one almost-empty
notification in total, latch still set. -/
theorem stock_notification_hysteresis_witness :
    (0 < countAvailableSlots 16 cfgLow.1 cfgLow.2 ∧
     countAvailableSlots 16 cfgLow.1 cfgLow.2 ≤ 5 ∧
     (∀ c ∈ [cfgEmpty, cfgLow], countAvailableSlots 16 c.1 c.2 ≤ 5)) ∧
    ((runStock 5 16 ⟨false, false, []⟩ (cfgLow :: [cfgEmpty, cfgLow])).sent.count
        Note.almostEmpty = 1 ∧
     (runStock 5 16 ⟨false, false, []⟩ (cfgLow :: [cfgEmpty, cfgLow])).ae = true) := by
  have h := stock_notification_hysteresis 5 16 false cfgLow [cfgEmpty, cfgLow]
    (by decide) (by decide) (by decide)
  exact ⟨⟨by decide, by decide, by decide⟩, h.1⟩

/-! ### C7: one key event per continuous press -/

theorem runKeys_cons (s : KeyState) (a b : Nat) (l : List (Nat × Nat)) :
    runKeys s ((a, b) :: l) =
      ((if (manualGetKeyState a b s).1 = 0 then []
        else [(manualGetKeyState a b s).1]) ++
          (runKeys (manualGetKeyState a b s).2 l).1,
       (runKeys (manualGetKeyState a b s).2 l).2) := rfl

theorem runKeys_append (s : KeyState) (l1 l2 : List (Nat × Nat)) :
    runKeys s (l1 ++ l2) =
      ((runKeys s l1).1 ++ (runKeys (runKeys s l1).2 l2).1,
       (runKeys (runKeys s l1).2 l2).2) := by
  induction l1 generalizing s with
  | nil => simp [runKeys]
  | cons p l1 ih =>
      cases p with
      | mk a b => simp [runKeys, ih]

/-- Running the debouncer while key `k` stays pressed, starting from a
state that has already sensed `k` at time `t0`: one event is emitted at the
first sample later than the debounce period (if any), none afterwards. -/
theorem runKeys_hold (k : Nat) (hk : k ≠ 0) (t0 : Nat) (ts : List Nat) :
    ∀ r : Nat,
      runKeys ⟨k, r, t0⟩ (ts.map (fun t => (k, t))) =
        (if k ≠ r ∧ ts.any (fun t => t0 + KEYPAD_DEBOUNCE_PERIOD < t) then [k] else [],
         ⟨k, if k ≠ r ∧ ts.any (fun t => t0 + KEYPAD_DEBOUNCE_PERIOD < t) then k else r,
          t0⟩) := by
  induction ts with
  | nil =>
      intro r
      simp [runKeys]
  | cons t ts ih =>
      intro r
      by_cases hcond : KEYPAD_DEBOUNCE_PERIOD < t - t0 ∧ k ≠ r
      · have hstep : manualGetKeyState k t ⟨k, r, t0⟩ = (k, ⟨k, k, t0⟩) := by
          simp [manualGetKeyState, hk, hcond.1, hcond.2]
        have hgt : t0 + KEYPAD_DEBOUNCE_PERIOD < t := by
          have h1 := hcond.1
          unfold KEYPAD_DEBOUNCE_PERIOD at h1 ⊢
          omega
        simp only [List.map_cons, runKeys, hstep]
        rw [ih k]
        simp [hk, hcond.2, List.any_cons, hgt]
      · have hc2 : ¬(k ≠ 0 ∧ KEYPAD_DEBOUNCE_PERIOD < t - t0 ∧ k ≠ r) := by
          intro hx
          exact hcond ⟨hx.2.1, hx.2.2⟩
        have hstep : manualGetKeyState k t ⟨k, r, t0⟩ = (0, ⟨k, r, t0⟩) := by
          simp only [manualGetKeyState]
          rw [if_neg (by simp), if_neg hc2]
        simp only [List.map_cons, runKeys, hstep]
        rw [ih r]
        by_cases hkr : k = r
        · simp [hkr]
        · have hle : ¬(t0 + KEYPAD_DEBOUNCE_PERIOD < t) := by
            have h1 : ¬(KEYPAD_DEBOUNCE_PERIOD < t - t0) := fun hx => hcond ⟨hx, hkr⟩
            unfold KEYPAD_DEBOUNCE_PERIOD at h1 ⊢
            omega
          simp [hkr, hle, List.any_cons]

/-- C7: the debouncer reports a key exactly once per continuous physical
press.  For a press of `k` first sensed at `t0` and held through the sample
times `ts`, exactly one `k` event is emitted when some sample lies beyond
the debounce period (and none otherwise), regardless of hold duration; and
after a release sample followed by a new press, a fresh single event is
emitted for the new press. -/
theorem keypad_one_event_per_press (k : Nat) (hk : k ≠ 0) (t0 : Nat) (ts : List Nat)
    (tr t1 : Nat) (ts1 : List Nat) :
    (runKeys idleKeys (holdSamples k t0 ts)).1 =
      (if ts.any (fun t => t0 + KEYPAD_DEBOUNCE_PERIOD < t) then [k] else []) ∧
    (runKeys idleKeys (holdSamples k t0 ts ++ (0, tr) :: holdSamples k t1 ts1)).1 =
      (if ts.any (fun t => t0 + KEYPAD_DEBOUNCE_PERIOD < t) then [k] else []) ++
      (if ts1.any (fun t => t1 + KEYPAD_DEBOUNCE_PERIOD < t) then [k] else []) := by
  have hfirst : ∀ (τ t : Nat), manualGetKeyState k t ⟨0, 0, τ⟩ = (0, ⟨k, 0, t⟩) := by
    intro τ t
    simp [manualGetKeyState, hk]
  have hrelease : ∀ (ρ τ t : Nat), manualGetKeyState 0 t ⟨k, ρ, τ⟩ = (0, ⟨0, 0, t⟩) := by
    intro ρ τ t
    simp [manualGetKeyState, Ne.symm hk]
  have hhold : ∀ (τ u0 : Nat) (us : List Nat),
      runKeys (⟨0, 0, τ⟩ : KeyState) (holdSamples k u0 us) =
        (if us.any (fun t => u0 + KEYPAD_DEBOUNCE_PERIOD < t) then [k] else [],
         ⟨k, if us.any (fun t => u0 + KEYPAD_DEBOUNCE_PERIOD < t) then k else 0, u0⟩) := by
    intro τ u0 us
    rw [holdSamples, runKeys_cons, hfirst]
    dsimp only
    rw [runKeys_hold k hk u0 us 0]
    simp [hk]
  have htail : ∀ ρ : Nat,
      (runKeys (⟨k, ρ, t0⟩ : KeyState) ((0, tr) :: holdSamples k t1 ts1)).1 =
        (if ts1.any (fun t => t1 + KEYPAD_DEBOUNCE_PERIOD < t) then [k] else []) := by
    intro ρ
    rw [runKeys_cons, hrelease]
    dsimp only
    rw [hhold tr t1 ts1]
    simp
  constructor
  · show (runKeys (⟨0, 0, 0⟩ : KeyState) (holdSamples k t0 ts)).1 = _
    rw [hhold 0 t0 ts]
  · show (runKeys (⟨0, 0, 0⟩ : KeyState) _).1 = _
    rw [runKeys_append, hhold 0 t0 ts]
    dsimp only
    rw [htail]

/-- C7 witness: key 5 pressed at 0, held through samples 60 and 120: one
event; released at 130, re-pressed at 200 and held through 260: two events
in total. -/
theorem keypad_one_event_per_press_witness :
    (5 : Nat) ≠ 0 ∧
    (runKeys idleKeys (holdSamples 5 0 [60, 120])).1 = [5] ∧
    (runKeys idleKeys
        (holdSamples 5 0 [60, 120] ++ (0, 130) :: holdSamples 5 200 [260])).1
      = [5, 5] := by
  have h := keypad_one_event_per_press 5 (by decide) 0 [60, 120] 130 200 [260]
  refine ⟨by decide, ?_, ?_⟩
  · rw [h.1]
    decide
  · rw [h.2]
    decide

/-! ### C4: coin pulse grouping -/

theorem runCoin_cons (delay : Nat) (s : CoinAcc) (e : CoinEv) (evs : List CoinEv) :
    runCoin delay s (e :: evs) = runCoin delay (coinStep delay s e) evs := rfl

/-- While the trace respects the grouping discipline, the accumulator only
counts pulses: no tick drains, the credit and the drain log are untouched,
and `lastPulse` tracks the latest pulse. -/
theorem runCoin_grouped (delay : Nat) (evs : List CoinEv) :
    ∀ (curT lastP : Nat) (hasP : Bool) (s : CoinAcc),
      grouped delay curT lastP hasP evs = true →
      (hasP = true → s.lastPulse = lastP) →
      (hasP = false → s.count = 0) →
      runCoin delay s evs =
        ⟨s.count + numPulses evs, (lastPulseT evs).getD s.lastPulse,
         s.credit, s.drains⟩ := by
  induction evs with
  | nil =>
      intro curT lastP hasP s hg h1 h2
      simp [runCoin, numPulses, lastPulseT]
  | cons e evs ih =>
      intro curT lastP hasP s hg h1 h2
      cases e with
      | pulse t =>
          have hg' : grouped delay t t true evs = true := by
            simp only [grouped, Bool.and_eq_true] at hg
            exact hg.2
          rw [runCoin_cons]
          have hrec := ih t t true (coinStep delay s (CoinEv.pulse t)) hg'
            (fun _ => rfl) (fun hx => by cases hx)
          rw [hrec]
          simp only [coinStep, coinAcceptorISR, numPulses, lastPulseT, Option.getD_some,
            CoinAcc.mk.injEq, and_true, true_and]
          omega
      | tick t =>
          have hsplit : (curT ≤ t ∧ (hasP = false ∨ t ≤ lastP + delay)) ∧
              grouped delay t lastP hasP evs = true := by
            have hcopy := hg
            simp only [grouped, Bool.and_eq_true, Bool.or_eq_true, Bool.not_eq_true',
              decide_eq_true_eq] at hcopy
            tauto
          rcases hsplit with ⟨⟨hct, hgap⟩, hg'⟩
          have hnd : processAcceptedCoin delay t s = s := by
            unfold processAcceptedCoin
            rw [if_neg]
            rintro ⟨hc, hdlt⟩
            cases hasP with
            | false =>
                rw [h2 rfl] at hc
                omega
            | true =>
                rcases hgap with hfalse | hle
                · cases hfalse
                · rw [h1 rfl] at hdlt
                  omega
          rw [runCoin_cons]
          have hstep : coinStep delay s (CoinEv.tick t) = s := hnd
          rw [hstep, ih t lastP hasP s hg' h1 h2]
          simp [numPulses, lastPulseT]

/-- C4: for `N` coin pulses respecting the grouping discipline (each event
within `delay` of the last pulse), followed by a tick after a quiet gap
exceeding `delay`, exactly one drain of the counter occurs (of exactly `N`
pulses) and Credit is incremented once by `pulseValues[N]` cents when `N`
is in the table domain with a positive value, and left unchanged
otherwise. -/
theorem coin_pulse_grouping (delay : Nat) (evs : List CoinEv) (T lp0 tN : Nat) (c0 : ℚ)
    (hg : grouped delay 0 0 false evs = true)
    (hN : 1 ≤ numPulses evs)
    (hlast : lastPulseT evs = some tN)
    (hT : tN + delay < T) :
    runCoin delay ⟨0, lp0, c0, []⟩ (evs ++ [CoinEv.tick T]) =
      ⟨0, tN,
       (if numPulses evs < pulseValues.length ∧ 0 < pulseValues.getD (numPulses evs) 0
        then c0 + (pulseValues.getD (numPulses evs) 0 : ℚ) / 100 else c0),
       [numPulses evs]⟩ := by
  have h1 := runCoin_grouped delay evs 0 0 false ⟨0, lp0, c0, []⟩ hg
    (by intro hx; cases hx) (fun _ => rfl)
  have happ : runCoin delay ⟨0, lp0, c0, []⟩ (evs ++ [CoinEv.tick T]) =
      processAcceptedCoin delay T (runCoin delay ⟨0, lp0, c0, []⟩ evs) := by
    simp [runCoin, List.foldl_append, coinStep]
  rw [happ, h1, hlast]
  simp only [Option.getD_some, Nat.zero_add]
  have hd : delay < T - tN := by omega
  have hpos : 0 < numPulses evs := by omega
  unfold processAcceptedCoin
  rw [if_pos (⟨hpos, hd⟩ : 0 < numPulses evs ∧ delay < T - tN)]
  dsimp only
  by_cases h7 : numPulses evs < pulseValues.length
  · by_cases hv : 0 < pulseValues.getD (numPulses evs) 0
    · rw [if_pos (⟨hpos, h7⟩ : 0 < numPulses evs ∧ numPulses evs < pulseValues.length),
        if_pos hv,
        if_pos (⟨h7, hv⟩ : numPulses evs < pulseValues.length
          ∧ 0 < pulseValues.getD (numPulses evs) 0)]
      simp only [List.nil_append]
    · rw [if_pos (⟨hpos, h7⟩ : 0 < numPulses evs ∧ numPulses evs < pulseValues.length),
        if_neg hv, if_neg (fun hx => hv hx.2)]
      simp only [List.nil_append]
  · rw [if_neg (fun hx => h7 hx.2), if_neg (fun hx => h7 hx.1)]
    simp only [List.nil_append]

/-- C4 witness: three pulses (times 10, 100, 200, gaps under 150 ms) then a
tick at 351: one drain of 3 pulses, Credit += 0.20 EUR. -/
theorem coin_pulse_grouping_witness :
    (grouped 150 0 0 false [CoinEv.pulse 10, CoinEv.pulse 100, CoinEv.pulse 200] = true ∧
     1 ≤ numPulses [CoinEv.pulse 10, CoinEv.pulse 100, CoinEv.pulse 200] ∧
     lastPulseT [CoinEv.pulse 10, CoinEv.pulse 100, CoinEv.pulse 200] = some 200 ∧
     200 + 150 < 351) ∧
    runCoin 150 ⟨0, 0, 0, []⟩
        ([CoinEv.pulse 10, CoinEv.pulse 100, CoinEv.pulse 200] ++ [CoinEv.tick 351]) =
      ⟨0, 200, (20 : ℚ) / 100, [3]⟩ := by
  have h := coin_pulse_grouping 150
    [CoinEv.pulse 10, CoinEv.pulse 100, CoinEv.pulse 200] 351 0 200 0
    (by decide) (by decide) (by decide) (by decide)
  refine ⟨⟨by decide, by decide, by decide, by decide⟩, ?_⟩
  rw [h]
  norm_num [numPulses, pulseValues, List.getD]

end Hanimat
